import Mathlib

/-!
# FeatureEngines: `MatchEngine.h` and `KpEngine.h`

A shallow embedding of the two classes of the repository.

* OpenCV is an external library.  Every OpenCV entry point the two classes call
  (`DescriptorMatcher::knnMatch`, `DescriptorMatcher::match`, `Feature2D::detect`,
  `cvtColor`, `GpuMat::upload`, ...) is a field of a record that the embedded
  functions receive; a call either yields its outputs or raises a
  `cv::Exception` (`Except CvException _`).  A call that raises leaves its
  output arguments as they were.
* A C++ call has three possible outcomes, see `Outcome`: it returns, a
  `cv::Exception` leaves it, or it runs into undefined behaviour (reading a
  `std::vector` element past its end).
* A `float` value is the rational it denotes.  The one `float` operation of the
  code, the quotient of the ratio test, is rounded as IEEE 754 binary32
  division rounds it (to nearest, ties to even, subnormals, overflow to an
  infinity, the special cases of a zero divisor), see `roundF32` and `fdiv`.
* `MatchEngine.h` is embedded for `GPU_MATCHER 0` and `FLANN 0`, the values the
  header defines.  `KpEngine.h` is embedded for both values of `KP_GPU`; the
  `SURF_GPU_*` macros only change the form of the calls on the extractor and the
  descriptor, not the control flow, and are not distinguished.
-/

namespace FeatureEngines

/-! ## Shared OpenCV data -/

/-- The `cv::Exception` object carried by a failing OpenCV call. -/
structure CvException where
  code : Int
  err : String
  deriving DecidableEq, Repr

/-- A `cv::Mat`: channel count, row width and the rows.  Used both for images
and for descriptor sets (one row per keypoint). -/
structure Mat where
  channels : Nat
  cols : Nat
  data : List (List ℚ)
  deriving DecidableEq

/-- The result of `Mat()`. -/
def Mat.empty : Mat := ⟨1, 0, []⟩

/-- The field `Mat::rows`. -/
def Mat.rows (m : Mat) : Nat := m.data.length

/-- A `cv::cuda::GpuMat`: a matrix held in device memory. -/
structure GpuMat where
  dev : Mat
  deriving DecidableEq

/-- The result of `cuda::GpuMat()`. -/
def GpuMat.empty : GpuMat := ⟨Mat.empty⟩

/-- A `cv::KeyPoint`. -/
structure KeyPoint where
  x : ℚ
  y : ℚ
  size : ℚ
  angle : ℚ
  response : ℚ
  octave : Int
  class_id : Int
  deriving DecidableEq

/-- A `cv::DMatch`. -/
structure DMatch where
  queryIdx : Int
  trainIdx : Int
  imgIdx : Int
  distance : ℚ
  deriving DecidableEq

/-- How a C++ call on an object of state `σ` ends. -/
inductive Outcome (σ : Type) where
  /-- the call returns; the object is left in state `s` -/
  | returned (s : σ)
  /-- a `cv::Exception` leaves the call; the object is left in state `s` -/
  | threw (e : CvException) (s : σ)
  /-- the call reads a vector element past the end -/
  | undefinedBehaviour

/-- The object state a call leaves behind, when it has one. -/
def Outcome.state? {σ : Type} : Outcome σ → Option σ
  | .returned s => some s
  | .threw _ s => some s
  | .undefinedBehaviour => none

/-- The call returned normally. -/
def Outcome.isReturned {σ : Type} : Outcome σ → Bool
  | .returned _ => true
  | _ => false

/-- The exception that left the call, if one did. -/
def Outcome.escaped? {σ : Type} : Outcome σ → Option CvException
  | .threw e _ => some e
  | _ => none

/-! ## `MatchEngine.h` -/

/-- The value of a `float` quotient: finite, an infinity, or NaN. -/
inductive FloatVal where
  | finite (q : ℚ)
  | posInf
  | negInf
  | nan
  deriving DecidableEq

/-- Rounding of a rational to the nearest integer, a tie going to the even
neighbour. -/
def roundHalfEven (q : ℚ) : ℤ :=
  if q - ⌊q⌋ < 1 / 2 then ⌊q⌋
  else if 1 / 2 < q - ⌊q⌋ then ⌊q⌋ + 1
  else if ⌊q⌋ % 2 = 0 then ⌊q⌋ else ⌊q⌋ + 1

/-- The binary32 value nearest to the real `x` (ties to even).  With `e` the
binary exponent of `x`, at least `-126`, the neighbouring values are the
multiples of `2 ^ (e - 23)`; a result of `2 ^ 128` or more is an infinity. -/
def roundF32 (x : ℚ) : FloatVal :=
  if x = 0 then .finite 0
  else
    let e : ℤ := max (Int.log 2 |x|) (-126)
    let ulp : ℚ := (2 : ℚ) ^ (e - 23)
    let y : ℚ := (roundHalfEven (|x| / ulp) : ℚ) * ulp
    if (2 : ℚ) ^ (128 : ℕ) ≤ y then (if 0 < x then .posInf else .negInf)
    else .finite (if 0 < x then y else -y)

/-- The `float` division `a / b` of two finite values (`b` a positive zero when
it is zero): the exact quotient rounded to binary32. -/
def fdiv (a b : ℚ) : FloatVal :=
  if b = 0 then
    if a = 0 then .nan else if 0 < a then .posInf else .negInf
  else roundF32 (a / b)

/-- The `float` comparison `r < thr` against a finite threshold. -/
def FloatVal.lt (r : FloatVal) (thr : ℚ) : Bool :=
  match r with
  | .finite q => decide (q < thr)
  | .posInf => false
  | .negInf => true
  | .nan => false

/-- The part of `cv::DescriptorMatcher` that `MatchEngine` calls.
`knnMatch q t k` is `matcher->knnMatch(q, t, out, k)`, `matchNN q t` is
`matcher->match(q, t, out)`; both overwrite `out` when they succeed. -/
structure DescriptorMatcher where
  knnMatch : Mat → Mat → Nat → Except CvException (List (List DMatch))
  matchNN : Mat → Mat → Except CvException (List DMatch)

/-- The OpenCV constant `NORM_L1`. -/
def NORM_L1 : Int := 2
/-- The OpenCV constant `NORM_L2`. -/
def NORM_L2 : Int := 4
/-- The OpenCV constant `NORM_HAMMING`. -/
def NORM_HAMMING : Int := 6

/-- The class `MatchEngine` (`GPU_MATCHER 0`). -/
structure MatchEngine where
  v_DMatch : List DMatch
  m_crossCheck : Bool
  matcher : DescriptorMatcher

/-- The constructor `MatchEngine(normType, crossCheck)` (`FLANN 0`);
`BFMatcher` is OpenCV's `new BFMatcher(normType, crossCheck)`. -/
def MatchEngine.new (BFMatcher : Int → Bool → DescriptorMatcher)
    (normType : Int) (crossCheck : Bool) : MatchEngine :=
  { v_DMatch := [], m_crossCheck := crossCheck, matcher := BFMatcher normType crossCheck }

/-- The threshold `thr_dl` of the Lowe ratio test; 0.75 is a binary32 value. -/
def thr_dl : ℚ := 0.75

/-- The loop of the ratio branch of `MatchEngine::match` over the rows
`v_v_DMatch[i]`, from the row at the head on; `acc` is `v_DMatch`.
`none` is an out-of-range `operator[]`. -/
def ratioLoop : List (List DMatch) → List DMatch → Option (List DMatch)
  | [], acc => some acc
  | row :: rest, acc =>
    match row[0]?, row[1]? with
    | some m0, some m1 =>
      let ratio := fdiv m0.distance m1.distance
      if ratio.lt thr_dl then ratioLoop rest (acc ++ [m0]) else ratioLoop rest acc
    | _, _ => none

/-- The method `MatchEngine::match(queryDesc, trainDesc, knn)` for `T = Mat`. -/
def MatchEngine.match_ (eng : MatchEngine) (queryDesc trainDesc : Mat) (knn : Bool) :
    Outcome MatchEngine :=
  if knn && !eng.m_crossCheck then
    match eng.matcher.knnMatch queryDesc trainDesc 2 with
    | .error e => .threw e eng
    | .ok v_v_DMatch =>
      match ratioLoop v_v_DMatch eng.v_DMatch with
      | some v => .returned { eng with v_DMatch := v }
      | none => .undefinedBehaviour
  else
    match eng.matcher.matchNN queryDesc trainDesc with
    | .error e => .threw e eng
    | .ok v => .returned { eng with v_DMatch := v }

/-! ### An exact brute-force matcher

A concrete `DescriptorMatcher`, used where a claim fixes the matcher to exact
brute-force search and for concrete runs. -/

/-- The L1 distance of two descriptor rows. -/
def normL1 (a b : List ℚ) : ℚ := ((a.zip b).map (fun p => |p.1 - p.2|)).sum

/-- The candidates of query row `i`: one `DMatch` per train row, nearest first
(ties keep train order). -/
def bfCandidates (dist : List ℚ → List ℚ → ℚ) (i : Nat) (qrow : List ℚ) (train : Mat) :
    List DMatch :=
  (train.data.enum.map (fun jt => (⟨i, jt.1, 0, dist qrow jt.2⟩ : DMatch))).insertionSort
    (fun a b => a.distance ≤ b.distance)

/-- The check OpenCV makes before it compares two descriptor sets. -/
def widthError : CvException := ⟨-215, "src1.cols == src2.cols"⟩

/-- Exact brute-force `knnMatch`: the `k` nearest train rows of every query row. -/
def bfKnnMatch (dist : List ℚ → List ℚ → ℚ) (query train : Mat) (k : Nat) :
    Except CvException (List (List DMatch)) :=
  if query.rows = 0 ∨ train.rows = 0 then .ok []
  else if query.cols ≠ train.cols then .error widthError
  else .ok (query.data.enum.map (fun iq => (bfCandidates dist iq.1 iq.2 train).take k))

/-- Exact brute-force `match` without cross-check: the nearest train row of
every query row. -/
def bfMatch (dist : List ℚ → List ℚ → ℚ) (query train : Mat) :
    Except CvException (List DMatch) :=
  match bfKnnMatch dist query train 1 with
  | .error e => .error e
  | .ok rows => .ok rows.flatten

/-- An exact brute-force matcher for the distance `dist`. -/
def bfMatcher (dist : List ℚ → List ℚ → ℚ) : DescriptorMatcher :=
  { knnMatch := bfKnnMatch dist, matchNN := bfMatch dist }

/-- A `BFMatcher` factory that uses the L1 distance for every norm type and
ignores the cross-check flag. -/
def bfFactoryL1 (_normType : Int) (_crossCheck : Bool) : DescriptorMatcher := bfMatcher normL1



/-- A matcher that answers every call with the given results; stands for the
matcher when the neighbours are given directly. -/
def tableMatcher (rows : List (List DMatch)) (nearest : List DMatch) : DescriptorMatcher :=
  { knnMatch := fun _ _ _ => .ok rows, matchNN := fun _ _ => .ok nearest }

/-- Runs `f` after a call that returned; an exception or undefined behaviour in
the first call ends the sequence (two C++ statements in a row). -/
def Outcome.andThen {σ : Type} (o : Outcome σ) (f : σ → Outcome σ) : Outcome σ :=
  match o with
  | .returned s => f s
  | .threw e s => .threw e s
  | .undefinedBehaviour => .undefinedBehaviour

/-- What one neighbour row adds to `v_DMatch` in the ratio loop when it holds
two candidates: its first neighbour if the ratio is below `thr_dl`. -/
def rowEmits (row : List DMatch) : Option DMatch :=
  match row[0]?, row[1]? with
  | some m0, some m1 => if (fdiv m0.distance m1.distance).lt thr_dl then some m0 else none
  | _, _ => none

/-! ## `KpEngine.h` -/

/-- The part of the class selected by `KP_EXTRACTOR` that `KpEngine` calls.
`detectAsync` also stands for the functor call of `SURF_GPU_EXTRACTOR`. -/
structure Extractor where
  detect : Mat → Except CvException (List KeyPoint)
  detectAndCompute : Mat → Except CvException (List KeyPoint × Mat)
  detectAsync : GpuMat → Except CvException GpuMat
  detectAndComputeAsync : GpuMat → Except CvException (GpuMat × GpuMat)

/-- The part of the class selected by `KP_DESCRIPTOR` that `KpEngine` calls:
`compute im v_kp` yields the new `v_kp` and `d_kp`, `computeAsync` the same on
the device.  `computeAsync` also stands for the functor call of
`SURF_GPU_DESCRIPTOR`. -/
structure Descriptor where
  compute : Mat → List KeyPoint → Except CvException (List KeyPoint × Mat)
  computeAsync : GpuMat → GpuMat → Except CvException (GpuMat × GpuMat)

/-- The OpenCV functions the GPU path calls on the image:
`cvtColor(im, imGray, CV_BGR2GRAY)` and `GpuMat::upload`. -/
structure ImgProc where
  cvtColor : Mat → Except CvException Mat
  upload : Mat → Except CvException GpuMat

/-- The class `KpEngine`.  `cerr` is not a member: it records the lines the
methods write to `std::cerr`. -/
structure KpEngine where
  im_gpu : GpuMat
  d_kp_gpu : GpuMat
  v_kp_gpu : GpuMat
  kpExtractor : Extractor
  kpDescriptor : Descriptor
  d_kp : Mat
  v_kp : List KeyPoint
  cerr : List String

/-- The constructor `KpEngine()`; the arguments are the objects made by
`KP_EXTRACTOR::create()` and `KP_DESCRIPTOR::create()`. -/
def KpEngine.new (kpExtractor : Extractor) (kpDescriptor : Descriptor) : KpEngine :=
  { im_gpu := GpuMat.empty, d_kp_gpu := GpuMat.empty, v_kp_gpu := GpuMat.empty,
    kpExtractor := kpExtractor, kpDescriptor := kpDescriptor,
    d_kp := Mat.empty, v_kp := [], cerr := [] }

/-- The method `KpEngine::extractKp(im)`; `KP_GPU` is the macro. -/
def KpEngine.extractKp (cv : ImgProc) (KP_GPU : Bool) (s : KpEngine) (im : Mat) :
    Outcome KpEngine :=
  if KP_GPU then
    match cv.cvtColor im with
    | .error e => .threw e s
    | .ok imGray =>
      match cv.upload imGray with
      | .error e => .threw e s
      | .ok g =>
        let s1 := { s with im_gpu := g }
        match s1.kpExtractor.detectAsync s1.im_gpu with
        | .ok kp => .returned { s1 with v_kp_gpu := kp }
        | .error _ => .returned { s1 with cerr := s1.cerr ++ ["this feature can not extract"] }
  else
    match s.kpExtractor.detect im with
    | .ok kp => .returned { s with v_kp := kp }
    | .error _ => .returned { s with cerr := s.cerr ++ ["this feature can not extract"] }

/-- The method `KpEngine::describeKp(im)`. -/
def KpEngine.describeKp (KP_GPU : Bool) (s : KpEngine) (im : Mat) : Outcome KpEngine :=
  if KP_GPU then
    match s.kpDescriptor.computeAsync s.im_gpu s.v_kp_gpu with
    | .ok (kp, d) => .returned { s with v_kp_gpu := kp, d_kp_gpu := d }
    | .error _ => .returned { s with cerr := s.cerr ++ ["!!!! this feature can not describe"] }
  else
    match s.kpDescriptor.compute im s.v_kp with
    | .ok (kp, d) => .returned { s with v_kp := kp, d_kp := d }
    | .error _ => .returned { s with cerr := s.cerr ++ ["this feature can not describe"] }

/-- The two statements of the `catch` blocks of `extrAndDescrKp`:
`extractKp(im); describeKp(im);`. -/
def KpEngine.extractThenDescribe (cv : ImgProc) (KP_GPU : Bool) (s : KpEngine) (im : Mat) :
    Outcome KpEngine :=
  (s.extractKp cv KP_GPU im).andThen (fun s1 => s1.describeKp KP_GPU im)

/-- The method `KpEngine::extrAndDescrKp(im)`. -/
def KpEngine.extrAndDescrKp (cv : ImgProc) (KP_GPU : Bool) (s : KpEngine) (im : Mat) :
    Outcome KpEngine :=
  if KP_GPU then
    -- `CV_Assert(im.channels() == 3)` raises a `cv::Exception` when it fails
    if im.channels ≠ 3 then s.extractThenDescribe cv KP_GPU im
    else
      match cv.cvtColor im with
      | .error _ => s.extractThenDescribe cv KP_GPU im
      | .ok imGray =>
        match cv.upload imGray with
        | .error _ => s.extractThenDescribe cv KP_GPU im
        | .ok g =>
          let s1 := { s with im_gpu := g }
          match s1.kpExtractor.detectAndComputeAsync s1.im_gpu with
          | .ok (kp, d) => .returned { s1 with v_kp_gpu := kp, d_kp_gpu := d }
          | .error _ => s1.extractThenDescribe cv KP_GPU im
  else
    match s.kpExtractor.detectAndCompute im with
    | .ok (kp, d) => .returned { s with v_kp := kp, d_kp := d }
    | .error _ => s.extractThenDescribe cv KP_GPU im

/-- The exception with which the combined call of `extrAndDescrKp` ends
(`detectAndCompute` on the CPU target, `detectAndComputeAsync` on the GPU
target), if the call is reached and raises; on the GPU target the call is
reached once the channel assertion, the grey conversion and the upload have
passed. -/
def KpEngine.combinedCallError (cv : ImgProc) (KP_GPU : Bool) (s : KpEngine) (im : Mat) :
    Option CvException :=
  if KP_GPU then
    if im.channels ≠ 3 then none
    else
      match cv.cvtColor im with
      | .error _ => none
      | .ok imGray =>
        match cv.upload imGray with
        | .error _ => none
        | .ok g =>
          match s.kpExtractor.detectAndComputeAsync g with
          | .ok _ => none
          | .error e => some e
  else
    match s.kpExtractor.detectAndCompute im with
    | .ok _ => none
    | .error e => some e

/-! ### Stand-ins for concrete runs -/

/-- The exception of OpenCV's channel check in `cvtColor` for `CV_BGR2GRAY`. -/
def channelError : CvException := ⟨-215, "scn == 3 || scn == 4"⟩

/-- The exception of an operation the selected algorithm does not implement. -/
def notImplemented : CvException := ⟨-213, "The function/feature is not implemented"⟩

/-- A stand-in for `cvtColor(im, imGray, CV_BGR2GRAY)`: OpenCV accepts three or
four channels and raises on any other count; the grey image has one channel
(here the first value of each pixel). -/
def sampleCvtColor (im : Mat) : Except CvException Mat :=
  if im.channels = 3 ∨ im.channels = 4 then
    .ok { channels := 1, cols := im.cols, data := im.data.map (fun r => r.take im.cols) }
  else .error channelError

/-- Stand-ins for the image functions: `sampleCvtColor` and an upload that
always succeeds. -/
def sampleImgProc : ImgProc := { cvtColor := sampleCvtColor, upload := fun m => .ok ⟨m⟩ }

/-- A stand-in extractor: one keypoint per image row at the row's start; its
combined operation is not implemented. -/
def sampleExtractor : Extractor :=
  { detect := fun im => .ok (im.data.enum.map (fun ir => ⟨0, ir.1, 1, 0, 0, 0, -1⟩)),
    detectAndCompute := fun _ => .error notImplemented,
    detectAsync := fun g => .ok g,
    detectAndComputeAsync := fun _ => .error notImplemented }

/-- A stand-in descriptor: keeps the keypoints and describes each by the
image's first row. -/
def sampleDescriptor : Descriptor :=
  { compute := fun im kps =>
      .ok (kps, { channels := 1, cols := im.cols, data := kps.map (fun _ => im.data.headD []) }),
    computeAsync := fun im kps => .ok (kps, im) }

/-- A one-channel (grey) 2x2 image. -/
def greyImage : Mat := { channels := 1, cols := 2, data := [[10, 20], [30, 40]] }

/-- A three-channel 1x2 image. -/
def colourImage : Mat := { channels := 3, cols := 2, data := [[1, 2, 3, 4, 5, 6]] }

/-- The neighbour rows of the two worked cases of the ratio test, each distance
the binary32 value nearest to the decimal: 0.14 and 7.07 for query row 0, 1.0
and 1.2 for query row 1. -/
def exampleRows : List (List DMatch) :=
  [[⟨0, 1, 0, 9395241 / 67108864⟩, ⟨0, 2, 0, 14826865 / 2097152⟩],
   [⟨1, 0, 0, 1⟩, ⟨1, 1, 0, 5033165 / 4194304⟩]]

/-- A new engine, cross-check off, whose matcher answers with `exampleRows`. -/
def exampleEngine : MatchEngine :=
  MatchEngine.new (fun _ _ => tableMatcher exampleRows []) NORM_L2 false

/-- One neighbour row at the edge of the threshold: distances 12582911 and
16777215, both binary32 values. -/
def boundaryRows : List (List DMatch) := [[⟨0, 0, 0, 12582911⟩, ⟨0, 1, 0, 16777215⟩]]

/-- A new engine, cross-check off, whose matcher answers with `boundaryRows`. -/
def boundaryEngine : MatchEngine :=
  MatchEngine.new (fun _ _ => tableMatcher boundaryRows []) NORM_L2 false

/-- A new engine, cross-check off, on a matcher whose `knnMatch` raises and
whose `match` returns no neighbours. -/
def knnFaultyEngine : MatchEngine :=
  MatchEngine.new
    (fun _ _ => { knnMatch := fun _ _ _ => .error widthError, matchNN := fun _ _ => .ok [] })
    NORM_L2 false

/-- A new engine, cross-check off, on the exact brute-force L1 matcher. -/
def bfEngine : MatchEngine := MatchEngine.new bfFactoryL1 NORM_L1 false

/-- Two query descriptors of width 1. -/
def queryTwo : Mat := { channels := 1, cols := 1, data := [[0], [1]] }

/-- Two train descriptors of width 1. -/
def trainTwo : Mat := { channels := 1, cols := 1, data := [[0], [100]] }

/-- A single train descriptor of width 1. -/
def trainOne : Mat := { channels := 1, cols := 1, data := [[5]] }

/-- Two train descriptors of width 2. -/
def trainWide : Mat := { channels := 1, cols := 2, data := [[0, 0], [100, 100]] }

/-- A descriptor set of width 1 without rows. -/
def noRows : Mat := { channels := 1, cols := 1, data := [] }

/-- A new `KpEngine` on the stand-in extractor and descriptor. -/
def sampleKpEngine : KpEngine := KpEngine.new sampleExtractor sampleDescriptor

/-! ## Lemmas on the ratio loop -/

theorem ratioLoop_eq_filterMap (rows : List (List DMatch)) (acc : List DMatch)
    (h : ∀ r ∈ rows, 2 ≤ r.length) :
    ratioLoop rows acc = some (acc ++ rows.filterMap rowEmits) := by
  induction rows generalizing acc with
  | nil => simp [ratioLoop]
  | cons row rest ih =>
    have hrow : 2 ≤ row.length := h row (List.mem_cons_self _ _)
    have hrest : ∀ r ∈ rest, 2 ≤ r.length := fun r hr => h r (List.mem_cons_of_mem _ hr)
    match row, hrow with
    | m0 :: m1 :: tl, _ =>
      by_cases hlt : (fdiv m0.distance m1.distance).lt thr_dl = true
      · simp [ratioLoop, rowEmits, hlt, ih _ hrest]
      · simp [ratioLoop, rowEmits, hlt, ih _ hrest]

theorem ratioLoop_short_row (rows : List (List DMatch)) (acc : List DMatch)
    (h : ∃ r ∈ rows, r.length < 2) : ratioLoop rows acc = none := by
  induction rows generalizing acc with
  | nil => simp at h
  | cons row rest ih =>
    match row with
    | [] => simp [ratioLoop]
    | [m] => simp [ratioLoop]
    | m0 :: m1 :: tl =>
      have h2 : ∃ r ∈ rest, r.length < 2 := by
        obtain ⟨r, hr, hlen⟩ := h
        rcases List.mem_cons.mp hr with rfl | hr
        · simp only [List.length_cons] at hlen
          omega
        · exact ⟨r, hr, hlen⟩
      by_cases hlt : (fdiv m0.distance m1.distance).lt thr_dl = true
      · simp [ratioLoop, hlt, ih _ h2]
      · simp [ratioLoop, hlt, ih _ h2]

theorem match_ratio_branch (eng : MatchEngine) (q t : Mat) (rows : List (List DMatch))
    (hcc : eng.m_crossCheck = false) (hknn : eng.matcher.knnMatch q t 2 = .ok rows)
    (hall : ∀ r ∈ rows, 2 ≤ r.length) :
    eng.match_ q t true
      = .returned { eng with v_DMatch := eng.v_DMatch ++ rows.filterMap rowEmits } := by
  simp [MatchEngine.match_, hcc, hknn, ratioLoop_eq_filterMap rows _ hall]

/-! ## Lemmas on binary32 rounding -/

theorem roundHalfEven_le (q : ℚ) (k : ℤ) (h : q ≤ k) : roundHalfEven q ≤ k := by
  have hf1 : (⌊q⌋ : ℚ) ≤ q := Int.floor_le q
  have hfk : ⌊q⌋ ≤ k := by exact_mod_cast hf1.trans h
  unfold roundHalfEven
  split_ifs with h1 h2 h3
  · exact hfk
  · have : (⌊q⌋ : ℚ) < k := by linarith
    have : ⌊q⌋ < k := by exact_mod_cast this
    omega
  · exact hfk
  · have hq : q - ⌊q⌋ = 1 / 2 := le_antisymm (not_lt.mp h2) (not_lt.mp h1)
    have : (⌊q⌋ : ℚ) < k := by linarith
    have : ⌊q⌋ < k := by exact_mod_cast this
    omega

theorem le_roundHalfEven (q : ℚ) (k : ℤ) (h : (k : ℚ) ≤ q) : k ≤ roundHalfEven q := by
  have hfk : k ≤ ⌊q⌋ := Int.le_floor.mpr h
  unfold roundHalfEven
  split_ifs <;> omega

theorem roundHalfEven_lt_even (q : ℚ) (K : ℤ) (hK : K % 2 = 0) :
    roundHalfEven q < K ↔ q < (K : ℚ) - 1 / 2 := by
  have hf1 : (⌊q⌋ : ℚ) ≤ q := Int.floor_le q
  have hf2 : q < (⌊q⌋ : ℚ) + 1 := Int.lt_floor_add_one q
  unfold roundHalfEven
  split_ifs with h1 h2 h3
  · constructor
    · intro h
      have : (⌊q⌋ : ℚ) + 1 ≤ K := by exact_mod_cast h
      linarith
    · intro h
      have : (⌊q⌋ : ℚ) < K := by linarith
      exact_mod_cast this
  · constructor
    · intro h
      have : (⌊q⌋ : ℚ) + 1 + 1 ≤ K := by exact_mod_cast h
      linarith
    · intro h
      have : (⌊q⌋ : ℚ) + 1 < K := by linarith
      exact_mod_cast this
  · have hq : q - ⌊q⌋ = 1 / 2 := le_antisymm (not_lt.mp h2) (not_lt.mp h1)
    constructor
    · intro h
      have h' : ⌊q⌋ + 2 ≤ K := by omega
      have : (⌊q⌋ : ℚ) + 2 ≤ K := by exact_mod_cast h'
      linarith
    · intro h
      have : (⌊q⌋ : ℚ) < K := by linarith
      exact_mod_cast this
  · have hq : q - ⌊q⌋ = 1 / 2 := le_antisymm (not_lt.mp h2) (not_lt.mp h1)
    constructor
    · intro h
      have : (⌊q⌋ : ℚ) + 1 + 1 ≤ K := by exact_mod_cast h
      linarith
    · intro h
      have : (⌊q⌋ : ℚ) + 1 < K := by linarith
      exact_mod_cast this

theorem roundHalfEven_nonneg (q : ℚ) (h : 0 ≤ q) : 0 ≤ roundHalfEven q :=
  le_roundHalfEven q 0 (by simpa using h)

theorem roundMag_nonneg (x : ℚ) (e : ℤ) :
    0 ≤ (roundHalfEven (|x| / (2 : ℚ) ^ (e - 23)) : ℚ) * (2 : ℚ) ^ (e - 23) := by
  have hu : (0 : ℚ) < (2 : ℚ) ^ (e - 23) := zpow_pos (by norm_num) _
  have : 0 ≤ roundHalfEven (|x| / (2 : ℚ) ^ (e - 23)) :=
    roundHalfEven_nonneg _ (div_nonneg (abs_nonneg x) hu.le)
  have : (0 : ℚ) ≤ (roundHalfEven (|x| / (2 : ℚ) ^ (e - 23)) : ℚ) := by exact_mod_cast this
  positivity

theorem two_zpow_split (e k : ℤ) :
    (2 : ℚ) ^ k = (2 : ℚ) ^ (k - (e - 23)) * (2 : ℚ) ^ (e - 23) := by
  rw [← zpow_add₀ (by norm_num : (2 : ℚ) ≠ 0)]
  congr 1
  ring

/-- A real rounds to a binary32 value below 0.75 exactly when it lies below the
midpoint `0.75 - 2 ^ (-25)` of 0.75 and the binary32 value before it: the
midpoint itself goes to 0.75, whose last bit is even. -/
theorem roundF32_lt_iff (x : ℚ) :
    (roundF32 x).lt (3 / 4) = true ↔ x < 25165823 / 33554432 := by
  rcases lt_trichotomy x 0 with hneg | hzero | hpos
  · -- negative quotient
    have hx0 : x ≠ 0 := ne_of_lt hneg
    have hnp : ¬ (0 < x) := not_lt.mpr hneg.le
    have hmag := roundMag_nonneg x (max (Int.log 2 |x|) (-126))
    have hR : x < 25165823 / 33554432 := by linarith
    simp only [roundF32, hx0, if_false, hnp, hR, iff_true]
    split_ifs
    · rfl
    · simp only [FloatVal.lt, decide_eq_true_eq]
      linarith
  · subst hzero
    simp [roundF32, FloatVal.lt]
  · have hx0 : x ≠ 0 := ne_of_gt hpos
    have habs : |x| = x := abs_of_pos hpos
    have h2 : (1 : ℕ) < 2 := by norm_num
    simp only [roundF32, hx0, if_false, hpos, if_true, habs]
    generalize he : max (Int.log 2 x) (-126) = e
    have hu : (0 : ℚ) < (2 : ℚ) ^ (e - 23) := zpow_pos (by norm_num) _
    rcases le_or_lt 1 x with h1 | h1
    · -- 1 ≤ x : the rounded value is at least 1
      have hlog : 0 ≤ Int.log 2 x :=
        (Int.zpow_le_iff_le_log h2 hpos (x := 0)).mp (by simpa using h1)
      have hee : e = Int.log 2 x := by rw [← he]; exact max_eq_left (by omega)
      have hle : (2 : ℚ) ^ e ≤ x := by
        rw [hee]; exact_mod_cast Int.zpow_log_le_self h2 hpos
      have hs := two_zpow_split e e
      have h23 : e - (e - 23) = 23 := by ring
      rw [h23] at hs
      have hn : ((2 ^ 23 : ℤ) : ℚ) ≤ x / (2 : ℚ) ^ (e - 23) := by
        rw [le_div_iff₀ hu]
        have h223 : ((2 ^ 23 : ℤ) : ℚ) = (2 : ℚ) ^ (23 : ℤ) := by norm_num
        rw [h223, ← hs]
        exact hle
      have hm := le_roundHalfEven _ _ hn
      have hmq : (2 : ℚ) ^ (23 : ℤ) ≤ (roundHalfEven (x / (2 : ℚ) ^ (e - 23)) : ℚ) := by
        have : ((2 ^ 23 : ℤ) : ℚ) ≤ (roundHalfEven (x / (2 : ℚ) ^ (e - 23)) : ℚ) := by
          exact_mod_cast hm
        have h223 : ((2 ^ 23 : ℤ) : ℚ) = (2 : ℚ) ^ (23 : ℤ) := by norm_num
        rwa [h223] at this
      have hy : (1 : ℚ) ≤ (roundHalfEven (x / (2 : ℚ) ^ (e - 23)) : ℚ) * (2 : ℚ) ^ (e - 23) := by
        have h1e : (1 : ℚ) ≤ (2 : ℚ) ^ e := by
          have := zpow_le_zpow_right₀ (by norm_num : (1 : ℚ) ≤ 2) (by omega : (0 : ℤ) ≤ e)
          simpa using this
        calc (1 : ℚ) ≤ (2 : ℚ) ^ e := h1e
          _ = (2 : ℚ) ^ (23 : ℤ) * (2 : ℚ) ^ (e - 23) := hs
          _ ≤ _ := mul_le_mul_of_nonneg_right hmq hu.le
      have hR : ¬ (x < 25165823 / 33554432) := by
        intro h; linarith
      simp only [hR, iff_false]
      split_ifs
      · simp [FloatVal.lt]
      · simp only [FloatVal.lt, decide_eq_true_eq]
        intro h; linarith
    · -- 0 < x < 1 : the rounded value is at most `2 ^ (e + 1)`, no overflow
      have hlog0 : Int.log 2 x < 0 :=
        (Int.lt_zpow_iff_log_lt h2 hpos (x := 0)).mp (by simpa using h1)
      have hlt : x < (2 : ℚ) ^ (e + 1) := by
        have hx : x < (2 : ℚ) ^ (Int.log 2 x + 1) := by
          exact_mod_cast Int.lt_zpow_succ_log_self h2 x
        have hle : Int.log 2 x + 1 ≤ e + 1 := by
          have : Int.log 2 x ≤ e := by rw [← he]; exact le_max_left _ _
          omega
        exact lt_of_lt_of_le hx (zpow_le_zpow_right₀ (by norm_num) hle)
      have hs := two_zpow_split e (e + 1)
      have h24 : e + 1 - (e - 23) = 24 := by ring
      rw [h24] at hs
      have h224 : ((2 ^ 24 : ℤ) : ℚ) = (2 : ℚ) ^ (24 : ℤ) := by norm_num
      have hn : x / (2 : ℚ) ^ (e - 23) ≤ ((2 ^ 24 : ℤ) : ℚ) := by
        rw [div_le_iff₀ hu, h224, ← hs]
        exact hlt.le
      have hm := roundHalfEven_le _ _ hn
      have hmq : (roundHalfEven (x / (2 : ℚ) ^ (e - 23)) : ℚ) ≤ (2 : ℚ) ^ (24 : ℤ) := by
        rw [← h224]
        exact_mod_cast hm
      have hy : (roundHalfEven (x / (2 : ℚ) ^ (e - 23)) : ℚ) * (2 : ℚ) ^ (e - 23)
          ≤ (2 : ℚ) ^ (e + 1) := by
        rw [hs]
        exact mul_le_mul_of_nonneg_right hmq hu.le
      have he0 : e ≤ -1 := by
        rw [← he]; exact max_le (by omega) (by norm_num)
      have hy1 : (roundHalfEven (x / (2 : ℚ) ^ (e - 23)) : ℚ) * (2 : ℚ) ^ (e - 23) ≤ 1 := by
        have : (2 : ℚ) ^ (e + 1) ≤ (2 : ℚ) ^ (0 : ℤ) :=
          zpow_le_zpow_right₀ (by norm_num) (by omega)
        simp only [zpow_zero] at this
        linarith
      have hno : ¬ ((2 : ℚ) ^ (128 : ℕ) ≤
          (roundHalfEven (x / (2 : ℚ) ^ (e - 23)) : ℚ) * (2 : ℚ) ^ (e - 23)) := by
        intro h
        have : (1 : ℚ) < (2 : ℚ) ^ (128 : ℕ) := by norm_num
        linarith
      simp only [hno, if_false, FloatVal.lt, decide_eq_true_eq]
      rcases le_or_lt (1 / 2) x with hh | hh
      · -- 1/2 ≤ x < 1 : the binade of 0.75, spacing 2 ^ (-24)
        have hlog1 : -1 ≤ Int.log 2 x :=
          (Int.zpow_le_iff_le_log h2 hpos (x := -1)).mp (by
            have : ((2 : ℕ) : ℚ) ^ (-1 : ℤ) = 1 / 2 := by norm_num
            rw [this]; exact hh)
        have hem : e = -1 := by
          have : Int.log 2 x = -1 := by omega
          rw [← he, this]; rfl
        subst hem
        have hu24 : (2 : ℚ) ^ ((-1 : ℤ) - 23) = 1 / 16777216 := by norm_num
        rw [hu24]
        have key := roundHalfEven_lt_even (x / (1 / 16777216)) 12582912 (by norm_num)
        constructor
        · intro h
          have h' : roundHalfEven (x / (1 / 16777216)) < 12582912 := by
            have : (roundHalfEven (x / (1 / 16777216)) : ℚ) < 12582912 := by linarith
            exact_mod_cast this
          have := key.mp h'
          rw [div_lt_iff₀ (by norm_num)] at this
          push_cast at this
          linarith
        · intro h
          have h' : roundHalfEven (x / (1 / 16777216)) < 12582912 := by
            apply key.mpr
            rw [div_lt_iff₀ (by norm_num)]
            push_cast
            linarith
          have : (roundHalfEven (x / (1 / 16777216)) : ℚ) < 12582912 := by exact_mod_cast h'
          linarith
      · -- 0 < x < 1/2 : the rounded value is at most 1/2
        have hlog2 : Int.log 2 x < -1 :=
          (Int.lt_zpow_iff_log_lt h2 hpos (x := -1)).mp (by
            have : ((2 : ℕ) : ℚ) ^ (-1 : ℤ) = 1 / 2 := by norm_num
            rw [this]; exact hh)
        have he2 : e ≤ -2 := by
          rw [← he]; exact max_le (by omega) (by norm_num)
        have hyh : (roundHalfEven (x / (2 : ℚ) ^ (e - 23)) : ℚ) * (2 : ℚ) ^ (e - 23)
            ≤ 1 / 2 := by
          have : (2 : ℚ) ^ (e + 1) ≤ (2 : ℚ) ^ (-1 : ℤ) :=
            zpow_le_zpow_right₀ (by norm_num) (by omega)
          have h12 : (2 : ℚ) ^ (-1 : ℤ) = 1 / 2 := by norm_num
          rw [h12] at this
          linarith
        constructor
        · intro _; linarith
        · intro _; linarith

theorem fdiv_lt_iff (a b : ℚ) (hb : b ≠ 0) :
    (fdiv a b).lt thr_dl = true ↔ a / b < 25165823 / 33554432 := by
  have hthr : thr_dl = 3 / 4 := by norm_num [thr_dl]
  rw [hthr]
  simp only [fdiv, hb, if_false]
  exact roundF32_lt_iff (a / b)

theorem rowEmits_cons_cons (m0 m1 m : DMatch) (tl : List DMatch) :
    rowEmits (m0 :: m1 :: tl) = some m ↔
      (m = m0 ∧ (fdiv m0.distance m1.distance).lt thr_dl = true) := by
  by_cases hlt : (fdiv m0.distance m1.distance).lt thr_dl = true
  · simp [rowEmits, hlt, eq_comm]
  · simp [rowEmits, hlt]

theorem rowEmits_head (row : List DMatch) (m : DMatch) (h : rowEmits row = some m) :
    row[0]? = some m := by
  match row with
  | [] => simp [rowEmits] at h
  | [_] => simp [rowEmits] at h
  | m0 :: m1 :: tl =>
    have := (rowEmits_cons_cons m0 m1 m tl).mp h
    simp [this.1]

theorem filterMap_rowEmits_sublist (rows : List (List DMatch)) :
    (rows.filterMap rowEmits).Sublist (rows.filterMap (fun r => r[0]?)) := by
  induction rows with
  | nil => simp
  | cons row rest ih =>
    cases hrow : rowEmits row with
    | none =>
      cases h0 : row[0]? with
      | none => simp only [List.filterMap_cons, hrow, h0]; exact ih
      | some m => simp only [List.filterMap_cons, hrow, h0]; exact List.Sublist.cons _ ih
    | some m =>
      have h0 := rowEmits_head row m hrow
      simp only [List.filterMap_cons, hrow, h0]
      exact List.Sublist.cons₂ _ ih

/-! ## The claims on `MatchEngine::match` -/

/-- C1 as stated fails at the edge of the threshold: for the binary32
distances 12582911 and 16777215 (`d1 ≤ d2`, `d2 > 0`) the exact ratio is below
0.75, yet its binary32 quotient is exactly 0.75, the comparison
`ratio < thr_dl` is false and the call emits nothing. -/
theorem C1_boundary_counterexample :
    ((12582911 : ℚ) ≤ 16777215 ∧ (0 : ℚ) < 16777215 ∧
      (12582911 : ℚ) / 16777215 < 0.75) ∧
    fdiv 12582911 16777215 = .finite 0.75 ∧
    boundaryRows = [[⟨0, 0, 0, 12582911⟩, ⟨0, 1, 0, 16777215⟩]] ∧
    (boundaryEngine.match_ queryTwo trainTwo true).isReturned = true ∧
    (boundaryEngine.match_ queryTwo trainTwo true).state?.map (fun e => e.v_DMatch)
      = some [] := by
  have hq : fdiv 12582911 16777215 = .finite 0.75 := by decide!
  have hrun := match_ratio_branch boundaryEngine queryTwo trainTwo boundaryRows rfl rfl
    (by simp [boundaryRows])
  have hemit : List.filterMap rowEmits boundaryRows = [] := by
    simp only [boundaryRows, List.filterMap_cons, rowEmits, List.getElem?_cons_zero,
      List.getElem?_cons_succ, hq]
    norm_num [FloatVal.lt, thr_dl]
  rw [hemit] at hrun
  refine ⟨⟨by norm_num, by norm_num, by norm_num⟩, hq, rfl, ?_, ?_⟩
  · rw [hrun]; rfl
  · rw [hrun]; rfl

/-- C1 amended: ratio filter on, cross-check off, every neighbour row holding
two candidates and row `i` carrying query index `i`.  For a row `i` whose first
two candidates are `m1`, `m2` with `m2.distance > 0`, the call returns and `m1`
is among the matches it appends exactly when the binary32 quotient of the two
distances is below 0.75, which is the case exactly when
`m1.distance / m2.distance < 0.75 - 2 ^ (-25)`.  So a ratio of 0.75 or more is
always rejected, and so is a ratio less than `2 ^ (-25)` below 0.75.  The order
`d1 ≤ d2` of the claim is not needed. -/
theorem C1_ratio_test_binary32 (eng : MatchEngine) (q t : Mat) (rows : List (List DMatch))
    (hcc : eng.m_crossCheck = false)
    (hknn : eng.matcher.knnMatch q t 2 = .ok rows)
    (hall : ∀ r ∈ rows, 2 ≤ r.length)
    (hidx : ∀ (j : Nat) (r : List DMatch) (m : DMatch),
      rows[j]? = some r → r[0]? = some m → m.queryIdx = j)
    (i : Nat) (m1 m2 : DMatch) (tl : List DMatch)
    (hrow : rows[i]? = some (m1 :: m2 :: tl))
    (hpos : 0 < m2.distance) :
    ∃ app, eng.match_ q t true = .returned { eng with v_DMatch := eng.v_DMatch ++ app } ∧
      (m1 ∈ app ↔ (fdiv m1.distance m2.distance).lt thr_dl = true) ∧
      (m1 ∈ app ↔ m1.distance / m2.distance < 0.75 - 1 / 2 ^ 25) ∧
      (0.75 ≤ m1.distance / m2.distance → m1 ∉ app) := by
  have hmem : m1 ∈ rows.filterMap rowEmits ↔ (fdiv m1.distance m2.distance).lt thr_dl = true := by
    rw [List.mem_filterMap]
    constructor
    · rintro ⟨r, hr, hemit⟩
      obtain ⟨j, hj⟩ := List.getElem?_of_mem hr
      have h1 : m1.queryIdx = (j : Int) := hidx j r m1 hj (rowEmits_head r m1 hemit)
      have h2 : m1.queryIdx = (i : Int) := hidx i _ m1 hrow (by simp)
      have hji : j = i := by
        have : (j : Int) = (i : Int) := by rw [← h1, ← h2]
        exact_mod_cast this
      subst hji
      rw [hrow] at hj
      have hr' : r = m1 :: m2 :: tl := (Option.some.inj hj).symm
      subst hr'
      exact ((rowEmits_cons_cons m1 m2 m1 tl).mp hemit).2
    · intro hlt
      exact ⟨m1 :: m2 :: tl, List.getElem?_mem hrow,
        (rowEmits_cons_cons m1 m2 m1 tl).mpr ⟨rfl, hlt⟩⟩
  have hexact : (fdiv m1.distance m2.distance).lt thr_dl = true ↔
      m1.distance / m2.distance < 0.75 - 1 / 2 ^ 25 := by
    rw [fdiv_lt_iff _ _ (ne_of_gt hpos)]
    norm_num
  refine ⟨rows.filterMap rowEmits, match_ratio_branch eng q t rows hcc hknn hall, hmem,
    hmem.trans hexact, ?_⟩
  intro hge hin
  have := (hmem.trans hexact).mp hin
  norm_num at this hge
  linarith

/-- Witness of C1 amended on `exampleRows`, row 0: the binary32 values of 0.14
and 7.07. -/
theorem C1_ratio_test_binary32_witness :
    ∃ app, exampleEngine.match_ queryTwo trainTwo true
        = .returned { exampleEngine with v_DMatch := exampleEngine.v_DMatch ++ app } ∧
      ((⟨0, 1, 0, 9395241 / 67108864⟩ : DMatch) ∈ app ↔
        (fdiv (⟨0, 1, 0, 9395241 / 67108864⟩ : DMatch).distance
          (⟨0, 2, 0, 14826865 / 2097152⟩ : DMatch).distance).lt thr_dl = true) ∧
      ((⟨0, 1, 0, 9395241 / 67108864⟩ : DMatch) ∈ app ↔
        (⟨0, 1, 0, 9395241 / 67108864⟩ : DMatch).distance
          / (⟨0, 2, 0, 14826865 / 2097152⟩ : DMatch).distance < 0.75 - 1 / 2 ^ 25) ∧
      (0.75 ≤ (⟨0, 1, 0, 9395241 / 67108864⟩ : DMatch).distance
          / (⟨0, 2, 0, 14826865 / 2097152⟩ : DMatch).distance →
        (⟨0, 1, 0, 9395241 / 67108864⟩ : DMatch) ∉ app) :=
  C1_ratio_test_binary32 exampleEngine queryTwo trainTwo exampleRows rfl rfl
    (by simp [exampleRows])
    (by
      intro j r m hr hm
      match j with
      | 0 =>
        simp [exampleRows] at hr
        subst hr
        simp at hm
        subst hm
        rfl
      | 1 =>
        simp [exampleRows] at hr
        subst hr
        simp at hm
        subst hm
        rfl
      | n + 2 => simp [exampleRows] at hr)
    0 ⟨0, 1, 0, 9395241 / 67108864⟩ ⟨0, 2, 0, 14826865 / 2097152⟩ []
    (by simp [exampleRows]) (by norm_num)

/-- The two worked cases of C1 run through the code: the row with distances
0.14 and 7.07 is accepted, the row with distances 1.0 and 1.2 is rejected. -/
theorem ratio_examples_run :
    (exampleEngine.match_ queryTwo trainTwo true).state?.map (fun e => e.v_DMatch)
      = some [⟨0, 1, 0, 9395241 / 67108864⟩] := by
  rw [match_ratio_branch exampleEngine queryTwo trainTwo exampleRows rfl rfl
    (by simp [exampleRows])]
  have hemit : List.filterMap rowEmits exampleRows = [⟨0, 1, 0, 9395241 / 67108864⟩] := by
    decide!
  rw [hemit]
  rfl

/-- C10: in the ratio branch, when every neighbour row holds two candidates,
the call returns; the old collection stays untouched at the front, the appended
matches are a subsequence (row order kept, at most one per row) of the rows'
first neighbours, and there are at most as many of them as neighbour rows (one
row per query descriptor). -/
theorem C10_appended_subsequence (eng : MatchEngine) (q t : Mat) (rows : List (List DMatch))
    (hcc : eng.m_crossCheck = false)
    (hknn : eng.matcher.knnMatch q t 2 = .ok rows)
    (hall : ∀ r ∈ rows, 2 ≤ r.length) :
    ∃ app, eng.match_ q t true = .returned { eng with v_DMatch := eng.v_DMatch ++ app } ∧
      app.Sublist (rows.filterMap (fun r => r[0]?)) ∧
      (rows.filterMap (fun r => r[0]?)).length = rows.length ∧
      app.length ≤ rows.length := by
  have hfirst : (rows.filterMap (fun r => r[0]?)).length = rows.length := by
    clear hknn
    induction rows with
    | nil => simp
    | cons row rest ih =>
      have hrow : 2 ≤ row.length := hall row (List.mem_cons_self _ _)
      match row, hrow with
      | m0 :: m1 :: tl, _ =>
        simp only [List.filterMap_cons, List.getElem?_cons_zero, List.length_cons]
        rw [ih (fun r hr => hall r (List.mem_cons_of_mem _ hr))]
  refine ⟨rows.filterMap rowEmits, match_ratio_branch eng q t rows hcc hknn hall,
    filterMap_rowEmits_sublist rows, hfirst, ?_⟩
  rw [← hfirst]
  exact (filterMap_rowEmits_sublist rows).length_le

/-- Witness of C10 on `exampleRows`. -/
theorem C10_appended_subsequence_witness :
    ∃ app, exampleEngine.match_ queryTwo trainTwo true
        = .returned { exampleEngine with v_DMatch := exampleEngine.v_DMatch ++ app } ∧
      app.Sublist (exampleRows.filterMap (fun r => r[0]?)) ∧
      (exampleRows.filterMap (fun r => r[0]?)).length = exampleRows.length ∧
      app.length ≤ exampleRows.length :=
  C10_appended_subsequence exampleEngine queryTwo trainTwo exampleRows rfl rfl
    (by simp [exampleRows])

/-- A row with fewer than two candidates makes the ratio branch read
`v_v_DMatch[i][1]` (or `[0]`) past the end of the row. -/
theorem match_short_row_undefined (eng : MatchEngine) (q t : Mat) (rows : List (List DMatch))
    (hcc : eng.m_crossCheck = false) (hknn : eng.matcher.knnMatch q t 2 = .ok rows)
    (hshort : ∃ r ∈ rows, r.length < 2) :
    eng.match_ q t true = .undefinedBehaviour := by
  simp [MatchEngine.match_, hcc, hknn, ratioLoop_short_row rows _ hshort]

/-- The brute-force neighbours of `queryTwo` in `trainOne`: one candidate per
row. -/
theorem bfKnnMatch_trainOne :
    bfEngine.matcher.knnMatch queryTwo trainOne 2
      = .ok [[⟨0, 0, 0, 5⟩], [⟨1, 0, 0, 4⟩]] := by
  norm_num [bfEngine, MatchEngine.new, bfFactoryL1, bfMatcher, bfKnnMatch, Mat.rows, queryTwo,
    trainOne, bfCandidates, normL1, List.enum, List.enumFrom]

/-- C3, the code at a train set of size 1: every neighbour row holds one
candidate and the ratio branch reads past the end of the first row instead of
skipping it. -/
theorem C3_single_train_row_out_of_range :
    bfEngine.match_ queryTwo trainOne true = .undefinedBehaviour :=
  match_short_row_undefined bfEngine queryTwo trainOne _ rfl bfKnnMatch_trainOne
    ⟨[⟨0, 0, 0, 5⟩], by simp, by simp⟩

/-- The brute-force neighbours of `queryTwo` in `trainTwo`. -/
theorem bfKnnMatch_trainTwo (prev : List DMatch) :
    ({ bfEngine with v_DMatch := prev } : MatchEngine).matcher.knnMatch queryTwo trainTwo 2
      = .ok [[⟨0, 0, 0, 0⟩, ⟨0, 1, 0, 100⟩], [⟨1, 0, 0, 1⟩, ⟨1, 1, 0, 99⟩]] := by
  norm_num [bfEngine, MatchEngine.new, bfFactoryL1, bfMatcher, bfKnnMatch, Mat.rows, queryTwo,
    trainTwo, bfCandidates, normL1, List.enum, List.enumFrom]

/-- One ratio-filtered brute-force call on `queryTwo`, `trainTwo` appends the
first neighbours of both rows to whatever the collection held. -/
theorem bf_run (prev : List DMatch) :
    ({ bfEngine with v_DMatch := prev } : MatchEngine).match_ queryTwo trainTwo true
      = .returned { bfEngine with v_DMatch := prev ++ [⟨0, 0, 0, 0⟩, ⟨1, 0, 0, 1⟩] } := by
  rw [match_ratio_branch _ queryTwo trainTwo _ rfl (bfKnnMatch_trainTwo prev) (by simp)]
  have hemit : List.filterMap rowEmits
      [[⟨0, 0, 0, 0⟩, ⟨0, 1, 0, 100⟩], [⟨1, 0, 0, 1⟩, ⟨1, 1, 0, 99⟩]]
      = [⟨0, 0, 0, 0⟩, ⟨1, 0, 0, 1⟩] := by
    decide!
  rw [hemit]

/-- C2, the code at two calls in a row with the ratio filter on: the second call
appends to the result of the first, so the collection holds every match twice,
while one call leaves each match once. -/
theorem C2_second_call_accumulates :
    (bfEngine.match_ queryTwo trainTwo true).state?.map (fun e => e.v_DMatch)
        = some [⟨0, 0, 0, 0⟩, ⟨1, 0, 0, 1⟩] ∧
    ((bfEngine.match_ queryTwo trainTwo true).andThen
        (fun e => e.match_ queryTwo trainTwo true)).state?.map (fun e => e.v_DMatch)
        = some [⟨0, 0, 0, 0⟩, ⟨1, 0, 0, 1⟩, ⟨0, 0, 0, 0⟩, ⟨1, 0, 0, 1⟩] := by
  have h0 := bf_run []
  have h1 := bf_run [⟨0, 0, 0, 0⟩, ⟨1, 0, 0, 1⟩]
  simp only [List.nil_append, List.cons_append] at h0 h1
  have hb : ({ bfEngine with v_DMatch := [] } : MatchEngine) = bfEngine := rfl
  rw [hb] at h0
  constructor
  · rw [h0]; rfl
  · rw [h0]
    simp only [Outcome.andThen]
    rw [h1]; rfl

/-- The brute-force nearest neighbours of `queryTwo` in `trainTwo`. -/
theorem bfMatch_trainTwo :
    bfMatch normL1 queryTwo trainTwo = .ok [⟨0, 0, 0, 0⟩, ⟨1, 0, 0, 1⟩] := by
  norm_num [bfMatch, bfKnnMatch, Mat.rows, queryTwo, trainTwo, bfCandidates, normL1, List.enum,
    List.enumFrom]

/-- C5: on an engine built with cross-check flag `crossCheck`, whatever the
collection holds.  With `knn` true and cross-check off the ratio loop runs over
the 2-nearest-neighbour rows (when each holds two candidates, the collection
grows by the rows that pass the ratio test).  With cross-check on, or `knn`
false, the collection becomes exactly the result of the matcher's single
nearest-neighbour `match`: no ratio test removes anything. -/
theorem C5_strategy_selection (BF : Int → Bool → DescriptorMatcher) (normType : Int)
    (crossCheck knn : Bool) (prev : List DMatch) (q t : Mat) :
    (knn = true ∧ crossCheck = false →
      ∀ rows, (BF normType crossCheck).knnMatch q t 2 = .ok rows →
        (∀ r ∈ rows, 2 ≤ r.length) →
        ({ MatchEngine.new BF normType crossCheck with v_DMatch := prev } : MatchEngine).match_
            q t knn
          = .returned { MatchEngine.new BF normType crossCheck with
              v_DMatch := prev ++ rows.filterMap rowEmits }) ∧
    (crossCheck = true ∨ knn = false →
      ∀ nearest, (BF normType crossCheck).matchNN q t = .ok nearest →
        ({ MatchEngine.new BF normType crossCheck with v_DMatch := prev } : MatchEngine).match_
            q t knn
          = .returned { MatchEngine.new BF normType crossCheck with v_DMatch := nearest }) := by
  constructor
  · rintro ⟨hknn, hcc⟩ rows hrows hall
    subst hknn
    exact match_ratio_branch _ q t rows hcc hrows hall
  · intro h nearest hnearest
    have hsel : (knn && !crossCheck) = false := by
      rcases h with h | h <;> simp [h]
    simp only [MatchEngine.new] at hnearest ⊢
    simp [MatchEngine.match_, hsel, hnearest]

/-- Witness of C5 on the brute-force matcher: ratio filter on and off. -/
theorem C5_strategy_selection_witness :
    (({ MatchEngine.new bfFactoryL1 NORM_L1 false with v_DMatch := [] } : MatchEngine).match_
        queryTwo trainTwo true
      = .returned { MatchEngine.new bfFactoryL1 NORM_L1 false with
          v_DMatch := [] ++ List.filterMap rowEmits
            [[⟨0, 0, 0, 0⟩, ⟨0, 1, 0, 100⟩], [⟨1, 0, 0, 1⟩, ⟨1, 1, 0, 99⟩]] }) ∧
    (({ MatchEngine.new bfFactoryL1 NORM_L1 false with v_DMatch := [⟨7, 7, 0, 7⟩] } :
        MatchEngine).match_ queryTwo trainTwo false
      = .returned { MatchEngine.new bfFactoryL1 NORM_L1 false with
          v_DMatch := [⟨0, 0, 0, 0⟩, ⟨1, 0, 0, 1⟩] }) :=
  ⟨(C5_strategy_selection bfFactoryL1 NORM_L1 false true [] queryTwo trainTwo).1 ⟨rfl, rfl⟩ _
      (bfKnnMatch_trainTwo []) (by simp),
   (C5_strategy_selection bfFactoryL1 NORM_L1 false false [⟨7, 7, 0, 7⟩] queryTwo trainTwo).2
      (Or.inr rfl) _ bfMatch_trainTwo⟩

/-- The brute-force matcher raises on `queryTwo` (width 1) against `trainWide`
(width 2). -/
theorem bf_width_mismatch :
    bfKnnMatch normL1 queryTwo trainWide 2 = .error widthError ∧
    bfMatch normL1 queryTwo trainWide = .error widthError := by
  constructor <;> simp [bfMatch, bfKnnMatch, Mat.rows, queryTwo, trainWide]

/-- C6 as stated fails: with descriptor widths 1 and 2 the matcher's exception
leaves `match` on a new engine, and after an earlier successful call the
collection still holds the earlier matches instead of being empty. -/
theorem C6_fault_escapes_counterexample :
    (bfEngine.match_ queryTwo trainWide true).escaped? = some widthError ∧
    ((bfEngine.match_ queryTwo trainTwo false).andThen
        (fun e => e.match_ queryTwo trainWide false)).escaped? = some widthError ∧
    ((bfEngine.match_ queryTwo trainTwo false).andThen
        (fun e => e.match_ queryTwo trainWide false)).state?.map (fun e => e.v_DMatch)
      = some [⟨0, 0, 0, 0⟩, ⟨1, 0, 0, 1⟩] := by
  have h1 : bfEngine.match_ queryTwo trainWide true = .threw widthError bfEngine := by
    simp [MatchEngine.match_, bfEngine, MatchEngine.new, bfFactoryL1, bfMatcher,
      bf_width_mismatch.1]
  have h2 : bfEngine.match_ queryTwo trainTwo false
      = .returned { bfEngine with v_DMatch := [⟨0, 0, 0, 0⟩, ⟨1, 0, 0, 1⟩] } := by
    simp [MatchEngine.match_, bfEngine, MatchEngine.new, bfFactoryL1, bfMatcher,
      bfMatch_trainTwo]
  have h3 : ({ bfEngine with v_DMatch := [⟨0, 0, 0, 0⟩, ⟨1, 0, 0, 1⟩] } : MatchEngine).match_
      queryTwo trainWide false
      = .threw widthError { bfEngine with v_DMatch := [⟨0, 0, 0, 0⟩, ⟨1, 0, 0, 1⟩] } := by
    simp [MatchEngine.match_, bfEngine, MatchEngine.new, bfFactoryL1, bfMatcher,
      bf_width_mismatch.2]
  refine ⟨?_, ?_, ?_⟩
  · rw [h1]; rfl
  · rw [h2]; simp only [Outcome.andThen]; rw [h3]; rfl
  · rw [h2]; simp only [Outcome.andThen]; rw [h3]; rfl

/-- C6 amended: for every pair of non-empty descriptor sets whose row widths
differ, `match` does not handle the exception of the underlying matcher.  On
the exact brute-force matcher, for every distance, cross-check flag, value of
`knn` and earlier content of the collection, the width exception leaves the
call, no match is computed, and the engine, its collection included, is as
before the call.  On any matcher, an exception of the one matcher call that
`match` makes (`knnMatch` in the ratio branch, `match` otherwise) leaves the
call in the same way, whatever the other matcher operation would do. -/
theorem C6_matcher_fault_propagates (dist : List ℚ → List ℚ → ℚ) (normType : Int)
    (crossCheck knn : Bool) (prev : List DMatch) (q t : Mat)
    (hq : q.rows ≠ 0) (ht : t.rows ≠ 0) (hw : q.cols ≠ t.cols) :
    ({ MatchEngine.new (fun _ _ => bfMatcher dist) normType crossCheck with
        v_DMatch := prev } : MatchEngine).match_ q t knn
      = .threw widthError
          { MatchEngine.new (fun _ _ => bfMatcher dist) normType crossCheck with
            v_DMatch := prev } ∧
    (∀ (eng : MatchEngine) (e : CvException),
      (eng.m_crossCheck = false → eng.matcher.knnMatch q t 2 = .error e →
        eng.match_ q t true = .threw e eng) ∧
      (∀ knn1 : Bool, (knn1 && !eng.m_crossCheck) = false →
        eng.matcher.matchNN q t = .error e → eng.match_ q t knn1 = .threw e eng)) := by
  have hk : ∀ k, bfKnnMatch dist q t k = .error widthError := by
    intro k
    simp [bfKnnMatch, hq, ht, hw]
  have hm : bfMatch dist q t = .error widthError := by
    simp [bfMatch, hk 1]
  refine ⟨?_, ?_⟩
  · unfold MatchEngine.match_
    simp only [MatchEngine.new, bfMatcher, hk 2, hm]
    split <;> rfl
  · intro eng e
    refine ⟨?_, ?_⟩
    · intro hcc hknn
      simp [MatchEngine.match_, hcc, hknn]
    · intro knn1 hsel hnn
      simp [MatchEngine.match_, hsel, hnn]

/-- Witness of C6 amended: widths 1 and 2, on the brute-force matcher and on a
matcher of which only `knnMatch` raises. -/
theorem C6_matcher_fault_propagates_witness :
    ({ MatchEngine.new (fun _ _ => bfMatcher normL1) NORM_L1 false with
        v_DMatch := [⟨7, 7, 0, 7⟩] } : MatchEngine).match_ queryTwo trainWide true
      = .threw widthError
          { MatchEngine.new (fun _ _ => bfMatcher normL1) NORM_L1 false with
            v_DMatch := [⟨7, 7, 0, 7⟩] } ∧
    knnFaultyEngine.match_ queryTwo trainWide true = .threw widthError knnFaultyEngine :=
  ⟨(C6_matcher_fault_propagates normL1 NORM_L1 false true [⟨7, 7, 0, 7⟩] queryTwo trainWide
      (by simp [Mat.rows, queryTwo]) (by simp [Mat.rows, trainWide])
      (by simp [queryTwo, trainWide])).1,
   ((C6_matcher_fault_propagates normL1 NORM_L1 false true [] queryTwo trainWide
      (by simp [Mat.rows, queryTwo]) (by simp [Mat.rows, trainWide])
      (by simp [queryTwo, trainWide])).2 knnFaultyEngine widthError).1 rfl rfl⟩

/-- C9: a new engine, any norm type, either cross-check flag, either value of
`knn`, on a matcher that returns no neighbours for empty input: `match` on an
empty query set and an empty train set returns and the collection is empty. -/
theorem C9_empty_inputs (BF : Int → Bool → DescriptorMatcher) (normType : Int)
    (crossCheck knn : Bool) (q t : Mat) (hq : q.rows = 0) (ht : t.rows = 0)
    (hempty : ∀ q t : Mat, q.rows = 0 → t.rows = 0 →
      (BF normType crossCheck).knnMatch q t 2 = .ok [] ∧
      (BF normType crossCheck).matchNN q t = .ok []) :
    (MatchEngine.new BF normType crossCheck).match_ q t knn
      = .returned (MatchEngine.new BF normType crossCheck) ∧
    (MatchEngine.new BF normType crossCheck).v_DMatch = [] := by
  obtain ⟨hk, hm⟩ := hempty q t hq ht
  refine ⟨?_, rfl⟩
  unfold MatchEngine.match_
  simp only [MatchEngine.new] at hk hm ⊢
  split <;> simp [hk, hm, ratioLoop]

/-- Witness of C9: the brute-force matcher, cross-check off, ratio filter on. -/
theorem C9_empty_inputs_witness :
    (MatchEngine.new bfFactoryL1 NORM_L2 false).match_ noRows noRows true
      = .returned (MatchEngine.new bfFactoryL1 NORM_L2 false) ∧
    (MatchEngine.new bfFactoryL1 NORM_L2 false).v_DMatch = [] :=
  C9_empty_inputs bfFactoryL1 NORM_L2 false true noRows noRows rfl rfl
    (by
      intro q t hq _
      simp [bfFactoryL1, bfMatcher, bfMatch, bfKnnMatch, hq])

/-! ### Query indices under the brute-force matcher -/

theorem bfCandidates_queryIdx (dist : List ℚ → List ℚ → ℚ) (i : Nat) (qrow : List ℚ)
    (train : Mat) (m : DMatch) (h : m ∈ bfCandidates dist i qrow train) :
    m.queryIdx = i := by
  unfold bfCandidates at h
  rw [(List.perm_insertionSort _ _).mem_iff] at h
  obtain ⟨jt, _, rfl⟩ := List.mem_map.mp h
  rfl

theorem bfCandidates_length (dist : List ℚ → List ℚ → ℚ) (i : Nat) (qrow : List ℚ)
    (train : Mat) : (bfCandidates dist i qrow train).length = train.rows := by
  simp [bfCandidates, Mat.rows, List.length_insertionSort, List.enum]

theorem bfKnnMatch_ok (dist : List ℚ → List ℚ → ℚ) (q t : Mat) (k : Nat)
    (hw : q.cols = t.cols) (ht : 0 < t.rows) :
    bfKnnMatch dist q t k
      = .ok (q.data.enum.map (fun iq => (bfCandidates dist iq.1 iq.2 t).take k)) := by
  unfold bfKnnMatch
  by_cases hq : q.rows = 0
  · have hd : q.data = [] := List.length_eq_zero.mp hq
    simp [hq, hd, List.enum]
  · simp [hq, hw, Nat.pos_iff_ne_zero.mp ht]

theorem ratio_queryIdx_increasing (dist : List ℚ → List ℚ → ℚ) (t : Mat) (k : Nat)
    (l : List (List ℚ)) (n : Nat) :
    ((((List.enumFrom n l).map (fun iq => (bfCandidates dist iq.1 iq.2 t).take k)).filterMap
        rowEmits).map (fun m => m.queryIdx)).Pairwise (fun a b => a < b) ∧
    ∀ x ∈ (((List.enumFrom n l).map (fun iq => (bfCandidates dist iq.1 iq.2 t).take k)).filterMap
        rowEmits).map (fun m => m.queryIdx), (n : Int) ≤ x := by
  induction l generalizing n with
  | nil => simp
  | cons a l ih =>
    obtain ⟨ihp, ihb⟩ := ih (n + 1)
    have hb : ∀ x ∈ (((List.enumFrom (n + 1) l).map
        (fun iq => (bfCandidates dist iq.1 iq.2 t).take k)).filterMap
        rowEmits).map (fun m => m.queryIdx), (n : Int) < x := by
      intro x hx
      have := ihb x hx
      push_cast at this
      omega
    cases hrow : rowEmits ((bfCandidates dist n a t).take k) with
    | none =>
      simp only [List.enumFrom_cons, List.map_cons, List.filterMap_cons, hrow]
      exact ⟨ihp, fun x hx => le_of_lt (hb x hx)⟩
    | some m =>
      have hm : m.queryIdx = (n : Int) := by
        have h0 := rowEmits_head _ m hrow
        exact bfCandidates_queryIdx dist n a t m (List.mem_of_mem_take (List.getElem?_mem h0))
      simp only [List.enumFrom_cons, List.map_cons, List.filterMap_cons, hrow,
        List.pairwise_cons, List.mem_cons, hm]
      refine ⟨⟨hb, ihp⟩, ?_⟩
      rintro x (rfl | hx)
      · exact le_refl _
      · exact le_of_lt (hb x hx)

/-- C8 as stated fails: under exact brute-force L1 search both query rows of
`queryTwo` pass the ratio test with train row 0 as their first neighbour, so
two distinct matches of the collection share train index 0. -/
theorem C8_train_index_shared_counterexample :
    (bfEngine.match_ queryTwo trainTwo true).state?.map (fun e => e.v_DMatch)
        = some [⟨0, 0, 0, 0⟩, ⟨1, 0, 0, 1⟩] ∧
    (⟨0, 0, 0, 0⟩ : DMatch) ≠ ⟨1, 0, 0, 1⟩ ∧
    (⟨0, 0, 0, 0⟩ : DMatch).trainIdx = (⟨1, 0, 0, 1⟩ : DMatch).trainIdx := by
  have h0 := bf_run []
  simp only [List.nil_append] at h0
  have hb : ({ bfEngine with v_DMatch := [] } : MatchEngine) = bfEngine := rfl
  rw [hb] at h0
  refine ⟨by rw [h0]; rfl, by decide, rfl⟩

/-- C8 amended: a new engine, cross-check off, on the exact brute-force matcher
of any distance, and a train set of at least two descriptors.  One
ratio-filtered call leaves a collection in which no two matches share a query
index (nothing is said of the train index). -/
theorem C8_query_index_injective (dist : List ℚ → List ℚ → ℚ) (normType : Int) (q t : Mat)
    (ht : 2 ≤ t.rows) :
    ∃ eng, ((MatchEngine.new (fun _ _ => bfMatcher dist) normType false).match_ q t true).state?
        = some eng ∧
      (eng.v_DMatch.map (fun m => m.queryIdx)).Nodup := by
  by_cases hw : q.cols = t.cols
  · have hknn := bfKnnMatch_ok dist q t 2 hw (by omega)
    have hall : ∀ r ∈ q.data.enum.map (fun iq => (bfCandidates dist iq.1 iq.2 t).take 2),
        2 ≤ r.length := by
      intro r hr
      obtain ⟨iq, _, rfl⟩ := List.mem_map.mp hr
      rw [List.length_take, bfCandidates_length]
      omega
    have hrun := match_ratio_branch
      (MatchEngine.new (fun _ _ => bfMatcher dist) normType false) q t _ rfl hknn hall
    refine ⟨_, by rw [hrun]; rfl, ?_⟩
    simp only [MatchEngine.new, List.nil_append]
    exact (ratio_queryIdx_increasing dist t 2 q.data 0).1.imp (fun h => ne_of_lt h)
  · refine ⟨MatchEngine.new (fun _ _ => bfMatcher dist) normType false, ?_, by simp [MatchEngine.new]⟩
    by_cases hq : q.rows = 0
    · simp [MatchEngine.match_, MatchEngine.new, bfMatcher, bfKnnMatch, hq, ratioLoop,
        Outcome.state?]
    · have ht0 : t.rows ≠ 0 := by omega
      simp [MatchEngine.match_, MatchEngine.new, bfMatcher, bfKnnMatch, hq, ht0, hw,
        Outcome.state?]

/-- Witness of C8 amended: L1 distance, `queryTwo` against `trainTwo`. -/
theorem C8_query_index_injective_witness :
    ∃ eng, ((MatchEngine.new (fun _ _ => bfMatcher normL1) NORM_L1 false).match_
        queryTwo trainTwo true).state? = some eng ∧
      (eng.v_DMatch.map (fun m => m.queryIdx)).Nodup :=
  C8_query_index_injective normL1 NORM_L1 queryTwo trainTwo (by simp [Mat.rows, trainTwo])

/-! ## The claims on `KpEngine` -/

/-- On the CPU target `extractKp` always returns: a failing `detect` is caught,
reported on `std::cerr`, and leaves the keypoints as they were. -/
theorem extractKp_cpu_returns (cv : ImgProc) (s : KpEngine) (im : Mat) :
    (s.extractKp cv false im).isReturned = true ∧
    (∀ e, s.kpExtractor.detect im = .error e →
      s.extractKp cv false im
        = .returned { s with cerr := s.cerr ++ ["this feature can not extract"] }) := by
  constructor
  · unfold KpEngine.extractKp
    cases s.kpExtractor.detect im <;> simp [Outcome.isReturned]
  · intro e he
    simp [KpEngine.extractKp, he]

/-- On the GPU target the grey conversion of `extractKp` stands before the
`try` block: its exception leaves the call. -/
theorem extractKp_gpu_conversion_fault (cv : ImgProc) (s : KpEngine) (im : Mat)
    (e : CvException) (hcvt : cv.cvtColor im = .error e) :
    s.extractKp cv true im = .threw e s := by
  simp [KpEngine.extractKp, hcvt]

/-- On the CPU target a failing combined call makes `extrAndDescrKp` run
`extractKp(im); describeKp(im)` from the state it started in, and the call
returns. -/
theorem extrAndDescrKp_cpu_fallback (cv : ImgProc) (s : KpEngine) (im : Mat) (e : CvException)
    (hfail : s.kpExtractor.detectAndCompute im = .error e) :
    s.extrAndDescrKp cv false im = s.extractThenDescribe cv false im ∧
    (s.extrAndDescrKp cv false im).isReturned = true := by
  have h1 : s.extrAndDescrKp cv false im = s.extractThenDescribe cv false im := by
    simp [KpEngine.extrAndDescrKp, hfail]
  refine ⟨h1, ?_⟩
  rw [h1]
  unfold KpEngine.extractThenDescribe KpEngine.extractKp
  cases hd : s.kpExtractor.detect im with
  | error e1 =>
    simp only [Bool.false_eq_true, if_false, Outcome.andThen, KpEngine.describeKp]
    cases s.kpDescriptor.compute im s.v_kp <;> simp [Outcome.isReturned]
  | ok kp =>
    simp only [Bool.false_eq_true, if_false, Outcome.andThen, KpEngine.describeKp]
    cases s.kpDescriptor.compute im kp <;> simp [Outcome.isReturned]

/-- On the GPU target, an image that fails the channel assertion of the
combined path and the grey conversion makes `extrAndDescrKp` raise from its
`catch` block. -/
theorem extrAndDescrKp_gpu_fault (cv : ImgProc) (s : KpEngine) (im : Mat) (e : CvException)
    (hch : im.channels ≠ 3) (hcvt : cv.cvtColor im = .error e) :
    s.extrAndDescrKp cv true im = .threw e s := by
  simp [KpEngine.extrAndDescrKp, hch, KpEngine.extractThenDescribe,
    extractKp_gpu_conversion_fault cv s im e hcvt, Outcome.andThen]

/-- `describeKp` always returns. -/
theorem describeKp_returns (KP_GPU : Bool) (s : KpEngine) (im : Mat) :
    (s.describeKp KP_GPU im).isReturned = true := by
  unfold KpEngine.describeKp
  cases KP_GPU
  · simp only [Bool.false_eq_true, if_false]
    cases s.kpDescriptor.compute im s.v_kp <;> simp [Outcome.isReturned]
  · simp only [if_true]
    cases s.kpDescriptor.computeAsync s.im_gpu s.v_kp_gpu <;> simp [Outcome.isReturned]

/-- On the GPU target `extractKp` returns once conversion and upload pass. -/
theorem extractKp_gpu_returns (cv : ImgProc) (s : KpEngine) (im imGray : Mat) (g : GpuMat)
    (hcvt : cv.cvtColor im = .ok imGray) (hup : cv.upload imGray = .ok g) :
    ∃ s1, s.extractKp cv true im = .returned s1 := by
  unfold KpEngine.extractKp
  simp only [if_true, hcvt, hup]
  cases s.kpExtractor.detectAsync g with
  | error e => exact ⟨_, rfl⟩
  | ok kp => exact ⟨_, rfl⟩

/-- C4: on either target, when the combined detect-and-compute call of
`extrAndDescrKp` raises a `cv::Exception`, the call ends exactly as
`extractKp(im); describeKp(im)` run from the same starting state (same
keypoints, descriptors and every other member), and it returns: no failure
leaves it. -/
theorem C4_combined_failure_falls_back (cv : ImgProc) (KP_GPU : Bool) (s : KpEngine) (im : Mat)
    (e : CvException) (hfail : s.combinedCallError cv KP_GPU im = some e) :
    s.extrAndDescrKp cv KP_GPU im = s.extractThenDescribe cv KP_GPU im ∧
    (s.extrAndDescrKp cv KP_GPU im).isReturned = true := by
  cases KP_GPU
  · -- CPU target
    have hdc : ∃ e1, s.kpExtractor.detectAndCompute im = .error e1 := by
      simp only [KpEngine.combinedCallError, Bool.false_eq_true, if_false] at hfail
      cases h : s.kpExtractor.detectAndCompute im with
      | error e1 => exact ⟨e1, rfl⟩
      | ok r => simp [h] at hfail
    obtain ⟨e1, he1⟩ := hdc
    exact extrAndDescrKp_cpu_fallback cv s im e1 he1
  · -- GPU target
    simp only [KpEngine.combinedCallError, if_true] at hfail
    by_cases hch : im.channels ≠ 3
    · simp [hch] at hfail
    · simp only [hch, if_false] at hfail
      cases hcvt : cv.cvtColor im with
      | error e1 => simp [hcvt] at hfail
      | ok imGray =>
        simp only [hcvt] at hfail
        cases hup : cv.upload imGray with
        | error e1 => simp [hup] at hfail
        | ok g =>
          simp only [hup] at hfail
          cases hdc : s.kpExtractor.detectAndComputeAsync g with
          | ok r => simp [hdc] at hfail
          | error e1 =>
            have h1 : s.extrAndDescrKp cv true im = s.extractThenDescribe cv true im := by
              simp [KpEngine.extrAndDescrKp, hch, hcvt, hup, hdc, KpEngine.extractThenDescribe,
                KpEngine.extractKp]
            refine ⟨h1, ?_⟩
            rw [h1]
            obtain ⟨s1, hs1⟩ := extractKp_gpu_returns cv s im imGray g hcvt hup
            simp only [KpEngine.extractThenDescribe, hs1, Outcome.andThen]
            exact describeKp_returns true s1 im

/-- Witness of C4: GPU target, a three-channel image, an extractor without a
combined operation. -/
theorem C4_combined_failure_falls_back_witness :
    sampleKpEngine.extrAndDescrKp sampleImgProc true colourImage
      = sampleKpEngine.extractThenDescribe sampleImgProc true colourImage ∧
    (sampleKpEngine.extrAndDescrKp sampleImgProc true colourImage).isReturned = true :=
  C4_combined_failure_falls_back sampleImgProc true sampleKpEngine colourImage notImplemented
    rfl

/-- The witness of C4 run through the code: the fallback leaves the uploaded
grey image as keypoints and descriptors on the device. -/
theorem fallback_gpu_run :
    (sampleKpEngine.extrAndDescrKp sampleImgProc true colourImage).state?.map
        (fun s => (s.v_kp_gpu, s.d_kp_gpu, s.cerr))
      = some (⟨⟨1, 2, [[1, 2]]⟩⟩, ⟨⟨1, 2, [[1, 2]]⟩⟩, []) := by
  rfl

/-- The fallback on the CPU target run through the code: `detect` and `compute`
of the stand-ins give one keypoint per image row and one descriptor each. -/
theorem fallback_cpu_run :
    (sampleKpEngine.extrAndDescrKp sampleImgProc false greyImage).state?.map
        (fun s => (s.v_kp.length, s.d_kp.data, s.cerr))
      = some (2, [[10, 20], [10, 20]], []) := by
  rfl

/-- C7, the code on the GPU target at a one-channel image: `cvtColor` raises
before the `try` block of `extractKp` and the `cv::Exception` leaves the call. -/
theorem C7_gpu_conversion_raises :
    sampleKpEngine.extractKp sampleImgProc true greyImage
      = .threw channelError sampleKpEngine :=
  extractKp_gpu_conversion_fault sampleImgProc sampleKpEngine greyImage channelError rfl

end FeatureEngines
